import Mathlib

/-!
Verification development for the WorkedExamples repository fragment.

Part 1 embeds the dormant browser-extension scrape payload
(`Waterfall/src/payload.ts`): text extraction with heading fallback,
truncation to a character cap, the chained summarize/classify HTTP flow
with fallback messaging, and the progress-message interval timer.

Part 2 models the two client wrappers exercised by the integration tests
(`BraidApi/test/saveactivity.test.ts` and the FindEnrichedChunks test):
`ActivityRepostoryApi.save` and `QueryModelWithEnrichmentApi.query`.
Their implementations live in `BraidCommon`, which is not part of this
fragment, so those operations are modelled from the specification.
-/

namespace Waterfall

/-- The character cap from payload.ts: `let NN = 1024*100;`. -/
def NN : Nat := 1024 * 100

/-- The summarize endpoint URL from payload.ts. -/
def summarizeQuery : String :=
  "https://braidapi.azurewebsites.net/api/summarize?session=49b65194-26e1-4041-ab11-4078229f478a"

/-- The classify endpoint URL from payload.ts. -/
def classifyQuery : String :=
  "https://braidapi.azurewebsites.net/api/classify?session=49b65194-26e1-4041-ab11-4078229f478a"

/-- The fixed Summary-stage fallback string from payload.ts. -/
def summaryFallback : String :=
  "Sorry, could not fetch a summary from the Waterfall server."

/-- The fixed Classification-stage fallback string from payload.ts. -/
def classificationFallback : String :=
  "Sorry, could not fetch a classification from the Waterfall server."

/-- A page is modelled as the Artoo scraping oracle: for each CSS selector
(`"p"`, `"h0"`, ..., `"h5"`) the list of text fragments `artoo.scrape`
returns for it. -/
def Page : Type := String → List String

/-- The scraping step of payload.ts:
`var scraped = artoo.scrape('p', 'text');
 if (scraped.length === 0) { for (var i = 0; i < 6; i++) { scraped = scraped = artoo.scrape('h' + i.toString(), 'text'); } }`.
The loop body overwrites `scraped` on every iteration. -/
def scrapedFinal (page : Page) : List String :=
  let scraped := page "p"
  if scraped.length = 0 then
    (List.range 6).foldl (fun _ i => page ("h" ++ toString i)) scraped
  else scraped

/-- The concatenate-and-truncate step of payload.ts:
`allText = scraped.join(' \n'); if (allText.length > NN) allText = allText.substring(0, NN);`. -/
def allTextOfFragments (scraped : List String) : String :=
  let allText := String.intercalate " \n" scraped
  if allText.length > NN then String.mk (allText.data.take NN) else allText

/-- The whole `try` block: extraction may throw (modelled by `none`), in
which case the `catch` sets `allText = ""`. -/
def computeAllText (scrapeOutcome : Option Page) : String :=
  match scrapeOutcome with
  | none => ""
  | some page => allTextOfFragments (scrapedFinal page)

/-- Outcome of one axios.post call: a resolved response carrying a status
and data, or a rejected promise. -/
inductive HttpOutcome where
  | ok (status : Nat) (data : String)
  | rejected
deriving DecidableEq, Repr

/-- A message on the extension-host channel, as sent by
`chrome.runtime.sendMessage` with a `type` field and a `text` field. -/
structure HostMessage where
  type : String
  text : String
deriving DecidableEq, Repr

/-- An observable event of the flow: issuing an HTTP POST with a given
text payload, or sending a host message. -/
inductive Event where
  | post (url : String) (text : String)
  | send (m : HostMessage)
deriving DecidableEq, Repr

/-- The classify continuation of payload.ts: the `.then`/`.catch` handlers
of the inner `axios.post(classifyQuery, ...)`. -/
def classifyHandlers (classifyRes : HttpOutcome) : List Event :=
  match classifyRes with
  | .ok status data =>
      if status = 200 then [Event.send ⟨"Classification", data⟩]
      else [Event.send ⟨"Classification", classificationFallback⟩]
  | .rejected => [Event.send ⟨"Classification", classificationFallback⟩]

/-- The event trace of one run of the setTimeout body of payload.ts, given
the outcome of the scrape attempt and of the two HTTP calls. The trace
lists events in program order: the summarize POST is issued first; its
`.then` handler (on status 200) sends the summary, issues the classify
POST and runs the classify handlers; on a non-200 status or a rejection
both fallback messages are sent and no classify POST is ever issued. -/
def flowTrace (scrapeOutcome : Option Page)
    (summaryRes : HttpOutcome) (classifyRes : HttpOutcome) : List Event :=
  let allText := computeAllText scrapeOutcome
  Event.post summarizeQuery allText ::
    (match summaryRes with
     | .ok status data =>
         if status = 200 then
           Event.send ⟨"Summary", data⟩ ::
             Event.post classifyQuery data :: classifyHandlers classifyRes
         else
           [Event.send ⟨"Summary", summaryFallback⟩,
            Event.send ⟨"Classification", classificationFallback⟩]
     | .rejected =>
         [Event.send ⟨"Summary", summaryFallback⟩,
          Event.send ⟨"Classification", classificationFallback⟩])

/-- State of the progress interval of payload.ts: the two growing base
texts and whether `clearInterval` has run. The initial state has
`baseSummaryText = "Summarising ..."`, `baseClassificationText =
"Classifying ..."` and the interval live. -/
structure TimerState where
  baseSummaryText : String
  baseClassificationText : String
  cleared : Bool
deriving DecidableEq, Repr

/-- The initial timer state from payload.ts. -/
def initialTimerState : TimerState :=
  { baseSummaryText := "Summarising ..."
    baseClassificationText := "Classifying ..."
    cleared := false }

/-- One firing of the `setInterval` callback of payload.ts, given the
current values of the `haveSummary` / `haveClassification` flags. A
cleared interval never fires again, modelled as a no-op. While a leg is
missing the callback appends `"."` to that leg's base text and sends it;
once both are present it calls `clearInterval` and sends nothing. -/
def intervalTick (haveSummary haveClassification : Bool)
    (st : TimerState) : TimerState × List HostMessage :=
  if st.cleared then (st, [])
  else if !haveSummary || !haveClassification then
    let st1 :=
      if !haveSummary then
        { st with baseSummaryText := st.baseSummaryText ++ "." }
      else st
    let msgs1 :=
      if !haveSummary then [HostMessage.mk "Summary" st1.baseSummaryText]
      else []
    let st2 :=
      if !haveClassification then
        { st1 with baseClassificationText := st1.baseClassificationText ++ "." }
      else st1
    let msgs2 :=
      if !haveClassification then
        [HostMessage.mk "Classification" st2.baseClassificationText]
      else []
    (st2, msgs1 ++ msgs2)
  else
    ({ st with cleared := true }, [])

/-- A run of the interval: the flag values observed at each successive
firing, threaded through `intervalTick`, collecting all messages sent. -/
def runTicks (st : TimerState) : List (Bool × Bool) → TimerState × List HostMessage
  | [] => (st, [])
  | p :: rest =>
      let step := intervalTick p.1 p.2 st
      let next := runTicks step.1 rest
      (next.1, step.2 ++ next.2)

end Waterfall

namespace BraidCommon

/-- The deployment environments selected by the tests
(`EEnvironment.kLocal`, `EEnvironment.kProduction`). -/
inductive EEnvironment where
  | kLocal
  | kProduction
deriving DecidableEq, Repr

/-- An activity record as built by saveactivity.test.ts: a required `id`
field plus arbitrary further key-value fields. -/
structure ActivityRecord where
  id : String
  fields : List (String × String)
deriving DecidableEq, Repr

/-- Outcome of a promise-returning client call: resolved with a boolean,
or rejected. -/
inductive SaveOutcome where
  | resolved (ok : Bool)
  | rejected
deriving DecidableEq, Repr

/-- Modelled from the spec: `ActivityRepostoryApi` lives in
`BraidCommon/src/ActivityRepositoryApi`, which is not part of this
fragment; only its tests are. Per the spec, `save` submits a record with
a required `id` field to the activity-repository endpoint, authenticated
by a session key, in the environment the client was constructed with; a
valid session key always yields a resolved success in both target
environments, and an invalid key always yields a resolved `false`, never
a rejection. The set of session keys the remote store accepts is the
`validSessionKeys` parameter. -/
def ActivityRepostoryApi.save (validSessionKeys : List String)
    (env : EEnvironment) (sessionKey : String)
    (record : ActivityRecord) : SaveOutcome :=
  if sessionKey ∈ validSessionKeys then SaveOutcome.resolved true
  else SaveOutcome.resolved false

/-- Conversation roles from EnrichedQuery. -/
inductive EConversationRole where
  | kUser
  | kAssistant
deriving DecidableEq, Repr

/-- One conversation element: a role paired with message text. -/
structure ConversationElement where
  role : EConversationRole
  content : String
deriving DecidableEq, Repr

/-- The content repository selector used by the tests. -/
inductive EChunkRepository where
  | kBoxer
deriving DecidableEq, Repr

/-- An enriched query spec, as assembled by the FindEnrichedChunks tests. -/
structure EnrichedQuerySpec where
  repositoryId : EChunkRepository
  personaPrompt : String
  enrichmentDocumentPrompt : String
  history : List ConversationElement
  question : String
deriving DecidableEq, Repr

/-- A relevant enriched chunk: indexed content carrying a relevance
score. Relevance scores (cosine similarities such as 0.825) are modelled
as rationals. -/
structure RelevantEnrichedChunk where
  relevance : ℚ
  content : String
deriving DecidableEq, Repr

/-- Constant from EnrichedChunk.ts: `kDefaultSearchChunkCount = 2`. -/
def kDefaultSearchChunkCount : Nat := 2

/-- Constant from EnrichedChunk.ts: `kDefaultMinimumCosineSimilarity = 0.825`. -/
def kDefaultMinimumCosineSimilarity : ℚ := 825 / 1000

/-- An enriched response: an answer string plus an ordered sequence of
relevant chunks. -/
structure EnrichedResponse where
  answer : String
  chunks : List RelevantEnrichedChunk
deriving DecidableEq, Repr

/-- The descending-relevance order on chunks. -/
def byRelevanceDesc (a b : RelevantEnrichedChunk) : Prop :=
  b.relevance ≤ a.relevance

instance : DecidableRel byRelevanceDesc :=
  fun a b => inferInstanceAs (Decidable (b.relevance ≤ a.relevance))

instance : IsTotal RelevantEnrichedChunk byRelevanceDesc :=
  ⟨fun a b => (le_total b.relevance a.relevance).imp id id⟩

instance : IsTrans RelevantEnrichedChunk byRelevanceDesc :=
  ⟨fun _ _ _ hab hbc => le_trans hbc hab⟩

/-- Modelled from the spec: `QueryModelWithEnrichmentApi` lives in
`BraidCommon/src/QueryModelWithEnrichementApi`, which is not part of this
fragment; only its tests and the `IEnrichedChunkRepository` interface
fragment are. Per the spec, `query` submits the query spec to the remote
model-query endpoint and returns an enriched response: the answer the
model produced plus the relevant chunks the enrichment lookup found,
ordered by descending relevance. The remote model and lookup are
modelled by the `serverAnswer` and `serverChunks` parameters; the
response presents the found chunks sorted by descending relevance. -/
def QueryModelWithEnrichmentApi.query (serverAnswer : String)
    (serverChunks : List RelevantEnrichedChunk)
    (_spec : EnrichedQuerySpec) : EnrichedResponse :=
  { answer := serverAnswer
    chunks := serverChunks.insertionSort byRelevanceDesc }

end BraidCommon

namespace Waterfall

/-- The page used as a concrete counterexample input: no paragraph text,
heading text at levels 0 and 6 only. -/
def pageZeroSix : Page := fun sel =>
  if sel = "p" then []
  else if sel = "h0" then ["Heading zero"]
  else if sel = "h6" then ["Heading six"]
  else []

/-- What the claim asserts the fallback produces: the fragments scraped
from heading levels 0 through 6, concatenated with newline separators. -/
def claimedHeadingFallbackText (page : Page) : String :=
  String.intercalate "\n" ((List.range 7).map (fun i => page ("h" ++ toString i))).flatten

end Waterfall

open Waterfall BraidCommon

/-- C4: for every scraped input, regardless of its size, the text
produced by the concatenate-and-truncate step has length at most the
fixed character cap `NN`, so the text posted to the summarize endpoint
never exceeds the cap. -/
theorem C4_allText_never_exceeds_cap (scrapeOutcome : Option Page) :
    (computeAllText scrapeOutcome).length ≤ NN := by
  cases scrapeOutcome with
  | none => exact Nat.zero_le NN
  | some page =>
      simp only [computeAllText, allTextOfFragments]
      split
      · next h => exact List.length_take_le NN _
      · next h => omega

/-- C10: if the text-extraction step throws (modelled by a `none` scrape
outcome), the catch sets the accumulated text to the empty string and
the summarize HTTP POST is still issued, as the first event of the flow,
with that empty text. -/
theorem C10_scrape_throw_still_posts (summaryRes classifyRes : HttpOutcome) :
    computeAllText none = "" ∧
    ∃ rest, flowTrace none summaryRes classifyRes =
      Event.post summarizeQuery "" :: rest :=
  ⟨rfl, _, rfl⟩

/-- C5 counterexample: on a page with no paragraph text but with heading
text at levels 0 and 6, the code's fallback produces the empty string,
not the concatenation of the fragments scraped from heading levels 0
through 6: the loop `for (var i = 0; i < 6; i++)` visits only levels 0
through 5 and overwrites `scraped` each iteration, so only the level-5
scrape survives. -/
theorem C5_counterexample :
    pageZeroSix "p" = [] ∧
    allTextOfFragments (scrapedFinal pageZeroSix) = "" ∧
    claimedHeadingFallbackText pageZeroSix = "Heading zero\nHeading six" ∧
    allTextOfFragments (scrapedFinal pageZeroSix) ≠
      claimedHeadingFallbackText pageZeroSix := by
  refine ⟨rfl, ?_, rfl, ?_⟩ <;> decide

/-- C5 (amended): the payload scrapes all paragraph text; if and only if
paragraph scraping yields zero fragments it runs the heading fallback
loop over levels 0 through 5, each iteration overwriting the previous
result, so the fragments used are exactly those scraped from heading
level 5; the resulting fragments are concatenated with a space-newline
separator, and truncation is applied only past the character cap (below
the cap the posted text is exactly the concatenation). -/
theorem C5_amended_heading_fallback (page : Page) :
    (page "p" = [] → scrapedFinal page = page "h5") ∧
    (page "p" ≠ [] → scrapedFinal page = page "p") ∧
    ((String.intercalate " \n" (scrapedFinal page)).length ≤ NN →
      allTextOfFragments (scrapedFinal page) =
        String.intercalate " \n" (scrapedFinal page)) := by
  refine ⟨fun h => ?_, fun h => ?_, fun h => ?_⟩
  · simp [scrapedFinal, h]
    rfl
  · simp [scrapedFinal, List.length_eq_zero, h]
  · simp only [allTextOfFragments]
    rw [if_neg (by omega)]

/-- An HTTP call failed: the promise was rejected, or it resolved with a
non-success status. -/
def httpFailed (res : HttpOutcome) : Prop :=
  res = HttpOutcome.rejected ∨
    ∃ status data, res = HttpOutcome.ok status data ∧ status ≠ 200

/-- C6: on any summarize-stage failure (rejection or non-200 status) the
flow sends the fixed Summary fallback string and the fixed Classification
fallback string; on any classify-stage failure (which presupposes a
successful summarize) it sends the fixed Classification fallback string.
Every failure is absorbed into such fallback messages: `flowTrace` is a
total function, so no exception surfaces to the host. -/
theorem C6_failure_fallback_messages (scrapeOutcome : Option Page)
    (summaryRes classifyRes : HttpOutcome) :
    (httpFailed summaryRes →
      Event.send ⟨"Summary", summaryFallback⟩ ∈
        flowTrace scrapeOutcome summaryRes classifyRes ∧
      Event.send ⟨"Classification", classificationFallback⟩ ∈
        flowTrace scrapeOutcome summaryRes classifyRes) ∧
    (∀ d, summaryRes = HttpOutcome.ok 200 d → httpFailed classifyRes →
      Event.send ⟨"Classification", classificationFallback⟩ ∈
        flowTrace scrapeOutcome summaryRes classifyRes) := by
  constructor
  · intro hfail
    rcases hfail with rfl | ⟨status, data, rfl, hstatus⟩
    · simp [flowTrace]
    · simp [flowTrace, hstatus]
  · intro d hsr hfail
    subst hsr
    rcases hfail with rfl | ⟨status, data, rfl, hstatus⟩
    · simp [flowTrace, classifyHandlers]
    · simp [flowTrace, classifyHandlers, hstatus]

/-- C6 witness. -/
theorem C6_failure_fallback_messages_witness :
    (Event.send ⟨"Summary", summaryFallback⟩ ∈
        flowTrace none HttpOutcome.rejected HttpOutcome.rejected ∧
      Event.send ⟨"Classification", classificationFallback⟩ ∈
        flowTrace none HttpOutcome.rejected HttpOutcome.rejected) ∧
    Event.send ⟨"Classification", classificationFallback⟩ ∈
      flowTrace none (HttpOutcome.ok 200 "summary text") (HttpOutcome.ok 500 "oops") :=
  ⟨(C6_failure_fallback_messages none HttpOutcome.rejected HttpOutcome.rejected).1
      (Or.inl rfl),
   (C6_failure_fallback_messages none (HttpOutcome.ok 200 "summary text")
      (HttpOutcome.ok 500 "oops")).2 "summary text" rfl
      (Or.inr ⟨500, "oops", rfl, by decide⟩)⟩

/-- C7: a classify POST appears in the flow trace only when the
summarize call resolved with status 200, its payload is exactly the
summarize response data, and the trace then has the fixed sequential
shape: first the summarize POST, then the Summary relay, then the
classify POST, then the classify handlers — so the classify call is
issued only after the summarize call completed successfully, never in
parallel with it. -/
theorem C7_classify_only_after_summary (scrapeOutcome : Option Page)
    (summaryRes classifyRes : HttpOutcome) (t : String)
    (h : Event.post classifyQuery t ∈ flowTrace scrapeOutcome summaryRes classifyRes) :
    summaryRes = HttpOutcome.ok 200 t ∧
    flowTrace scrapeOutcome summaryRes classifyRes =
      Event.post summarizeQuery (computeAllText scrapeOutcome) ::
        Event.send ⟨"Summary", t⟩ ::
          Event.post classifyQuery t :: classifyHandlers classifyRes := by
  have hq : classifyQuery ≠ summarizeQuery := by decide
  cases summaryRes with
  | rejected => simp [flowTrace, hq] at h
  | ok status data =>
      by_cases hs : status = 200
      · subst hs
        have ht : t = data := by
          cases classifyRes with
          | rejected => simpa [flowTrace, classifyHandlers, hq] using h
          | ok cs cd =>
              by_cases hc : cs = 200 <;>
                simpa [flowTrace, classifyHandlers, hq, hc] using h
        subst ht
        exact ⟨rfl, by simp [flowTrace]⟩
      · simp [flowTrace, hs, hq] at h

/-- C7 witness. -/
theorem C7_classify_only_after_summary_witness :
    HttpOutcome.ok 200 "summary text" = HttpOutcome.ok 200 "summary text" ∧
    flowTrace none (HttpOutcome.ok 200 "summary text") (HttpOutcome.ok 200 "class text") =
      Event.post summarizeQuery (computeAllText none) ::
        Event.send ⟨"Summary", "summary text"⟩ ::
          Event.post classifyQuery "summary text" ::
            classifyHandlers (HttpOutcome.ok 200 "class text") :=
  C7_classify_only_after_summary none (HttpOutcome.ok 200 "summary text")
    (HttpOutcome.ok 200 "class text") "summary text"
    (by simp [flowTrace, classifyHandlers])

/-- Every host message sent from the flow trace has type `"Summary"` or
`"Classification"`. -/
theorem flowTrace_send_type (scrapeOutcome : Option Page)
    (summaryRes classifyRes : HttpOutcome) (m : HostMessage)
    (h : Event.send m ∈ flowTrace scrapeOutcome summaryRes classifyRes) :
    m.type = "Summary" ∨ m.type = "Classification" := by
  cases summaryRes with
  | rejected =>
      rcases (by simpa [flowTrace] using h : m = _ ∨ m = _) with rfl | rfl <;> simp
  | ok status data =>
      by_cases hs : status = 200
      · cases classifyRes with
        | rejected =>
            rcases (by simpa [flowTrace, classifyHandlers, hs] using h :
              m = _ ∨ m = _) with rfl | rfl <;> simp
        | ok cs cd =>
            by_cases hc : cs = 200
            · rcases (by simpa [flowTrace, classifyHandlers, hs, hc] using h :
                m = _ ∨ m = _) with rfl | rfl <;> simp
            · rcases (by simpa [flowTrace, classifyHandlers, hs, hc] using h :
                m = _ ∨ m = _) with rfl | rfl <;> simp
      · rcases (by simpa [flowTrace, hs] using h : m = _ ∨ m = _) with rfl | rfl <;>
          simp

/-- Every host message sent by a firing of the progress interval has type
`"Summary"` or `"Classification"`. -/
theorem intervalTick_send_type (haveSummary haveClassification : Bool)
    (st : TimerState) (m : HostMessage)
    (h : m ∈ (intervalTick haveSummary haveClassification st).2) :
    m.type = "Summary" ∨ m.type = "Classification" := by
  cases haveSummary <;> cases haveClassification <;>
    cases hcl : st.cleared <;>
      simp [intervalTick, hcl] at h <;>
        (try rcases h with h | h) <;> (try subst h) <;> simp

/-- C9: every message the payload sends on the extension-host channel —
whether from the flow trace or from a progress-timer tick — is a
`HostMessage`, i.e. has a `type` field and a `text` string field, and its
`type` is exactly `"Summary"` or `"Classification"`. -/
theorem C9_message_shape (scrapeOutcome : Option Page)
    (summaryRes classifyRes : HttpOutcome)
    (haveSummary haveClassification : Bool) (st : TimerState) (m : HostMessage)
    (h : Event.send m ∈ flowTrace scrapeOutcome summaryRes classifyRes ∨
      m ∈ (intervalTick haveSummary haveClassification st).2) :
    m.type = "Summary" ∨ m.type = "Classification" := by
  rcases h with h | h
  · exact flowTrace_send_type scrapeOutcome summaryRes classifyRes m h
  · exact intervalTick_send_type haveSummary haveClassification st m h

/-- C9 witness. -/
theorem C9_message_shape_witness :
    HostMessage.type ⟨"Summary", "Summarising ...."⟩ = "Summary" ∨
    HostMessage.type ⟨"Summary", "Summarising ...."⟩ = "Classification" :=
  C9_message_shape none HttpOutcome.rejected HttpOutcome.rejected
    false false initialTimerState ⟨"Summary", "Summarising ...."⟩
    (Or.inr (by decide))

/-- A firing of the interval with both flags set sends no messages. -/
theorem intervalTick_true_true_msgs (st : TimerState) :
    (intervalTick true true st).2 = [] := by
  cases hcl : st.cleared <;> simp [intervalTick, hcl]

/-- After a firing of the interval with both flags set, the interval is
cleared: either it already was, or this firing calls `clearInterval`. -/
theorem intervalTick_true_true_cleared (st : TimerState) :
    (intervalTick true true st).1.cleared = true := by
  cases hcl : st.cleared <;> simp [intervalTick, hcl]

/-- Over any run whose every firing observes both flags set, no message
is sent, and if at least one firing happens the interval ends cleared. -/
theorem runTicks_all_true (st : TimerState) (ticks : List (Bool × Bool))
    (hall : ∀ p ∈ ticks, p = (true, true)) :
    (runTicks st ticks).2 = [] ∧
      (ticks ≠ [] → (runTicks st ticks).1.cleared = true) := by
  induction ticks generalizing st with
  | nil => exact ⟨rfl, fun hne => absurd rfl hne⟩
  | cons p rest ih =>
      have hp : p = (true, true) := hall p (List.mem_cons_self p rest)
      subst hp
      have ihr := ih (intervalTick true true st).1
        (fun q hq => hall q (List.mem_cons_of_mem _ hq))
      constructor
      · simp [runTicks, intervalTick_true_true_msgs, ihr.1]
      · intro _
        cases rest with
        | nil => simpa [runTicks] using intervalTick_true_true_cleared st
        | cons q qs =>
            simpa [runTicks] using ihr.2 (by simp)

/-- C8: while the interval is live and either call leg is unresolved, a
firing sends at least one progress message, and each such message's text
is the previous base text with one more dot appended (the incrementing
ellipsis); a firing that observes both legs resolved sends nothing and
clears the interval, a cleared interval is a no-op, and over any run in
which both legs have reached a terminal state no progress message at all
is emitted and the timer ends cancelled. -/
theorem C8_progress_timer (st : TimerState)
    (haveSummary haveClassification : Bool) (ticks : List (Bool × Bool)) :
    (st.cleared = false → (haveSummary = false ∨ haveClassification = false) →
      ((intervalTick haveSummary haveClassification st).2 ≠ [] ∧
       (haveSummary = false →
         HostMessage.mk "Summary" (st.baseSummaryText ++ ".") ∈
           (intervalTick haveSummary haveClassification st).2) ∧
       (haveClassification = false →
         HostMessage.mk "Classification" (st.baseClassificationText ++ ".") ∈
           (intervalTick haveSummary haveClassification st).2))) ∧
    ((intervalTick true true st).1.cleared = true ∧
      (intervalTick true true st).2 = []) ∧
    (st.cleared = true →
      intervalTick haveSummary haveClassification st = (st, [])) ∧
    ((∀ p ∈ ticks, p = (true, true)) →
      (runTicks st ticks).2 = [] ∧
        (ticks ≠ [] → (runTicks st ticks).1.cleared = true)) := by
  refine ⟨?_, ⟨intervalTick_true_true_cleared st, intervalTick_true_true_msgs st⟩,
    ?_, runTicks_all_true st ticks⟩
  · intro hcl hwait
    cases haveSummary <;> cases haveClassification <;>
      simp [intervalTick, hcl] <;> simp at hwait
  · intro hcl
    simp [intervalTick, hcl]

/-- C8 witness. -/
theorem C8_progress_timer_witness :
    (intervalTick false false initialTimerState).2 ≠ [] ∧
    HostMessage.mk "Summary" (initialTimerState.baseSummaryText ++ ".") ∈
      (intervalTick false false initialTimerState).2 ∧
    HostMessage.mk "Classification" (initialTimerState.baseClassificationText ++ ".") ∈
      (intervalTick false false initialTimerState).2 ∧
    (runTicks initialTimerState [(true, true)]).2 = [] ∧
    (runTicks initialTimerState [(true, true)]).1.cleared = true := by
  have h := C8_progress_timer initialTimerState false false [(true, true)]
  exact ⟨(h.1 rfl (Or.inl rfl)).1, (h.1 rfl (Or.inl rfl)).2.1 rfl,
    (h.1 rfl (Or.inl rfl)).2.2 rfl, (h.2.2.2 (by decide)).1,
    (h.2.2.2 (by decide)).2 (by decide)⟩

/-- C1: for every activity record with its required `id` field, `save`
with a session key the store accepts resolves to `true` in every
environment (local and production), `save` with a key the store does not
accept resolves to `false` in every environment, and in no case is the
returned promise rejected. -/
theorem C1_save_resolved_boolean (validSessionKeys : List String)
    (env : EEnvironment) (sessionKey : String) (record : ActivityRecord) :
    (sessionKey ∈ validSessionKeys →
      ActivityRepostoryApi.save validSessionKeys env sessionKey record =
        SaveOutcome.resolved true) ∧
    (sessionKey ∉ validSessionKeys →
      ActivityRepostoryApi.save validSessionKeys env sessionKey record =
        SaveOutcome.resolved false) ∧
    ActivityRepostoryApi.save validSessionKeys env sessionKey record ≠
      SaveOutcome.rejected := by
  refine ⟨fun h => ?_, fun h => ?_, ?_⟩
  · simp [ActivityRepostoryApi.save, h]
  · simp [ActivityRepostoryApi.save, h]
  · simp only [ActivityRepostoryApi.save]
    split <;> simp

/-- C1 witness. -/
theorem C1_save_resolved_boolean_witness :
    ActivityRepostoryApi.save ["valid-key"] EEnvironment.kLocal "valid-key"
        ⟨"42", [("test", "Some test data")]⟩ = SaveOutcome.resolved true ∧
    ActivityRepostoryApi.save ["valid-key"] EEnvironment.kProduction "thiswillfail"
        ⟨"43", [("test", "Some test data")]⟩ = SaveOutcome.resolved false :=
  ⟨(C1_save_resolved_boolean ["valid-key"] EEnvironment.kLocal "valid-key"
      ⟨"42", [("test", "Some test data")]⟩).1 (by decide),
   (C1_save_resolved_boolean ["valid-key"] EEnvironment.kProduction "thiswillfail"
      ⟨"43", [("test", "Some test data")]⟩).2.1 (by decide)⟩

/-- C2: for every enriched response the query operation returns from
server chunks with pairwise-distinct relevance scores, the chunk
sequence is sorted by strictly descending relevance, and in particular
whenever it contains two or more chunks the first chunk's relevance
strictly exceeds the second's. -/
theorem C2_chunks_sorted_descending (serverAnswer : String)
    (serverChunks : List RelevantEnrichedChunk) (spec : EnrichedQuerySpec)
    (hdistinct : (serverChunks.map RelevantEnrichedChunk.relevance).Pairwise (· ≠ ·)) :
    (QueryModelWithEnrichmentApi.query serverAnswer serverChunks spec).chunks.Pairwise
      (fun a b => b.relevance < a.relevance) ∧
    (∀ c0 c1 rest,
      (QueryModelWithEnrichmentApi.query serverAnswer serverChunks spec).chunks =
        c0 :: c1 :: rest → c1.relevance < c0.relevance) := by
  have hsorted : (serverChunks.insertionSort byRelevanceDesc).Pairwise byRelevanceDesc :=
    List.sorted_insertionSort byRelevanceDesc serverChunks
  have hperm : List.Perm (serverChunks.insertionSort byRelevanceDesc) serverChunks :=
    List.perm_insertionSort byRelevanceDesc serverChunks
  have hdist2 : ((serverChunks.insertionSort byRelevanceDesc).map
      RelevantEnrichedChunk.relevance).Pairwise (· ≠ ·) :=
    ((hperm.map RelevantEnrichedChunk.relevance).pairwise_iff
      (fun hab => Ne.symm hab)).mpr hdistinct
  have hdist3 : (serverChunks.insertionSort byRelevanceDesc).Pairwise
      (fun a b => a.relevance ≠ b.relevance) := List.pairwise_map.mp hdist2
  have hstrict : (serverChunks.insertionSort byRelevanceDesc).Pairwise
      (fun a b => b.relevance < a.relevance) :=
    (hsorted.and hdist3).imp (fun hab => lt_of_le_of_ne hab.1 (Ne.symm hab.2))
  refine ⟨hstrict, fun c0 c1 rest heq => ?_⟩
  rw [show (QueryModelWithEnrichmentApi.query serverAnswer serverChunks spec).chunks =
    serverChunks.insertionSort byRelevanceDesc from rfl] at heq
  rw [heq] at hstrict
  exact (List.pairwise_cons.mp hstrict).1 c1 (List.mem_cons_self c1 rest)

/-- C2 witness. -/
theorem C2_chunks_sorted_descending_witness :
    (QueryModelWithEnrichmentApi.query "An answer"
      [⟨1, "low"⟩, ⟨2, "high"⟩]
      ⟨EChunkRepository.kBoxer, "persona", "enrichment", [], "A question"⟩).chunks.Pairwise
      (fun a b => b.relevance < a.relevance) ∧
    (∀ c0 c1 rest,
      (QueryModelWithEnrichmentApi.query "An answer"
        [⟨1, "low"⟩, ⟨2, "high"⟩]
        ⟨EChunkRepository.kBoxer, "persona", "enrichment", [], "A question"⟩).chunks =
          c0 :: c1 :: rest → c1.relevance < c0.relevance) :=
  C2_chunks_sorted_descending "An answer" [⟨1, "low"⟩, ⟨2, "high"⟩]
    ⟨EChunkRepository.kBoxer, "persona", "enrichment", [], "A question"⟩ (by decide)

/-- C3: for every query spec whose conversation history is empty, when
the remote endpoint produces a non-empty answer and finds at least one
relevant chunk (the behaviour the spec requires of it), the enriched
response the query operation returns has a non-empty answer string and a
non-empty chunk sequence. -/
theorem C3_empty_history_nonempty (serverAnswer : String)
    (serverChunks : List RelevantEnrichedChunk) (spec : EnrichedQuerySpec)
    (hhist : spec.history = []) (hanswer : serverAnswer ≠ "")
    (hfound : serverChunks ≠ []) :
    (QueryModelWithEnrichmentApi.query serverAnswer serverChunks spec).answer ≠ "" ∧
    (QueryModelWithEnrichmentApi.query serverAnswer serverChunks spec).chunks ≠ [] := by
  refine ⟨hanswer, fun hnil => ?_⟩
  have hperm : List.Perm (serverChunks.insertionSort byRelevanceDesc) serverChunks :=
    List.perm_insertionSort byRelevanceDesc serverChunks
  rw [show (QueryModelWithEnrichmentApi.query serverAnswer serverChunks spec).chunks =
    serverChunks.insertionSort byRelevanceDesc from rfl] at hnil
  rw [hnil] at hperm
  exact hfound hperm.symm.eq_nil

/-- C3 witness. -/
theorem C3_empty_history_nonempty_witness :
    (QueryModelWithEnrichmentApi.query "An answer" [⟨1, "only chunk"⟩]
      ⟨EChunkRepository.kBoxer, "persona", "enrichment", [], "A question"⟩).answer ≠ "" ∧
    (QueryModelWithEnrichmentApi.query "An answer" [⟨1, "only chunk"⟩]
      ⟨EChunkRepository.kBoxer, "persona", "enrichment", [], "A question"⟩).chunks ≠ [] :=
  C3_empty_history_nonempty "An answer" [⟨1, "only chunk"⟩]
    ⟨EChunkRepository.kBoxer, "persona", "enrichment", [], "A question"⟩
    rfl (by decide) (by decide)

/-- C5 witness. -/
theorem C5_amended_heading_fallback_witness :
    scrapedFinal pageZeroSix = pageZeroSix "h5" ∧
    allTextOfFragments (scrapedFinal pageZeroSix) =
      String.intercalate " \n" (scrapedFinal pageZeroSix) :=
  ⟨(C5_amended_heading_fallback pageZeroSix).1 rfl,
   (C5_amended_heading_fallback pageZeroSix).2.2 (by decide)⟩
